import Mathlib

/-!
# Verification of `matricula-online-scraper` (`src/mos/download_files.py`)

A shallow embedding of the scraper's pure logic.  Python strings are
modelled as `String`/`List Char`, the network is an oracle mapping the
attempt number of each request to its outcome, and the observable actions
of the per-file download loop are recorded as a trace of `Event`s.
External effects (`requests`, the filesystem, `time.sleep`, logging) are
represented by trace events; `sys.exit` (via `log_error_and_exit`) is
modelled by an `Except`/fatal result, which is faithful because
`SystemExit` is not caught by the surrounding `except Exception` blocks.
-/

/-- Outcome of one `session.get` call inside the download loop:
an HTTP response with a status code, a `requests.exceptions.ConnectionError`,
or any other unexpected exception. -/
inductive AttemptOutcome where
  | response (status : Nat)
  | connectionError
  | otherError
deriving DecidableEq, Repr

/-- Observable actions of `Downloader.download_files`, in program order. -/
inductive Event where
  | httpRequest (url : String)
  | fileSaved (fp : String)
  | logSkipStatus (status : Nat)
  | sleep (seconds : Int)
  | logRetry (attempt : Nat)
  | logAbandon (attempts : Nat)
  | logSkipUnexpected
  | logSkipExisting (fp : String)
deriving DecidableEq, Repr

/-- `True` exactly on network-request events. -/
def isHttpRequest : Event → Bool
  | Event.httpRequest _ => true
  | _ => false

/-- `True` exactly on file-save events. -/
def isFileSaved : Event → Bool
  | Event.fileSaved _ => true
  | _ => false

/-- `True` exactly on the `"Skipping file N, k failed attempts"` log event. -/
def isLogAbandon : Event → Bool
  | Event.logAbandon _ => true
  | _ => false

/-- `True` exactly on retry-log events. -/
def isLogRetry : Event → Bool
  | Event.logRetry _ => true
  | _ => false

/-- The body of the `while request_attempts < 3` loop of
`Downloader.download_files` (src/mos/download_files.py lines 291-316).
`a` is the current value of `request_attempts`; `oracle a` is the outcome
of the network request made in the iteration entered with that value
(the counter is incremented exactly once per connection error, so it
also numbers the requests).  `fuel` is an upper bound on the remaining
iterations used only to make the recursion structural: every iteration
either breaks or increments `a`, and once `a = 3` the guard exits,
so `fuel = 3` at entry (`a = 0`) is never exhausted before the guard.
The `logAbandon` branch mirrors the `else` arm of the
`except ConnectionError` handler; after it the loop re-checks its guard
with `a` unchanged, which fails, so the iteration is final. -/
def download_file_go (oracle : Nat → AttemptOutcome) (speed : Int) (url fp : String) :
    Nat → Nat → List Event
  | 0, _ => []
  | fuel + 1, a =>
    if a < 3 then
      match oracle a with
      | AttemptOutcome.response s =>
        if s = 200 then
          [Event.httpRequest url, Event.fileSaved fp, Event.sleep speed]
        else
          [Event.httpRequest url, Event.logSkipStatus s, Event.sleep speed]
      | AttemptOutcome.connectionError =>
        if a < 3 then
          Event.httpRequest url :: Event.logRetry (a + 1) ::
            download_file_go oracle speed url fp fuel (a + 1)
        else
          [Event.httpRequest url, Event.logAbandon a]
      | AttemptOutcome.otherError =>
        [Event.httpRequest url, Event.logSkipUnexpected]
    else []

/-- One file's download loop as entered by `download_files`:
`request_attempts = 0`, and three loop iterations suffice. -/
def download_file (oracle : Nat → AttemptOutcome) (speed : Int) (url fp : String) : List Event :=
  download_file_go oracle speed url fp 3 0

/-- `os.path.join` on two components (POSIX, as used by the scraper). -/
def pyPathJoin (a b : String) : String :=
  if b.toList.head? = some '/' then b
  else if a = "" then b
  else if a.toList.getLast? = some '/' then a ++ b
  else a ++ "/" ++ b

/-- `os.path.join(self.base_images_dir, self.archive_directory_name,
f"(image_label).jpg")` from the download loop. -/
def file_path (base dir label : String) : String :=
  pyPathJoin (pyPathJoin base dir) (label ++ ".jpg")

/-- The configuration fields of `Downloader` read by the download loop. -/
structure DlConfig where
  crawl_speed : Int
  skip_existing : Bool

/-- `Downloader.__init__`: `CRAWL_SPEED` starts at 2 and is replaced by
`args.crawl_speed` only when that is truthy and positive. -/
def init_crawl_speed (args_crawl_speed : Option Int) : Int :=
  match args_crawl_speed with
  | none => 2
  | some s => if s ≠ 0 ∧ s > 0 then s else 2

/-- One iteration of the `for index, (image_path, image_label)` loop of
`Downloader.download_files`: resolve the URL, build the target path,
honour `skip_existing`, otherwise run the retry loop.  `fsExists` models
`os.path.exists`; `resolveURL` models the opaque
`encryption_routine.createValidURL(image_path, csrf_token)`. -/
def process_file (cfg : DlConfig) (fsExists : String → Bool) (resolveURL : String → String)
    (oracle : Nat → AttemptOutcome) (base dir : String) (entry : String × String) : List Event :=
  let url := resolveURL entry.1
  let fp := file_path base dir entry.2
  if cfg.skip_existing && fsExists fp then [Event.logSkipExisting fp]
  else download_file oracle cfg.crawl_speed url fp

/-- The enumeration underlying `download_files`: entry number `i` (0-based)
uses the network oracle `oracle i`. -/
def download_files_go (cfg : DlConfig) (fsExists : String → Bool) (resolveURL : String → String)
    (oracle : Nat → Nat → AttemptOutcome) (base dir : String) :
    Nat → List (String × String) → List (List Event)
  | _, [] => []
  | i, e :: rest =>
    process_file cfg fsExists resolveURL (oracle i) base dir e ::
      download_files_go cfg fsExists resolveURL oracle base dir (i + 1) rest

/-- `Downloader.download_files`: process every image entry in order,
yielding one event trace per entry. -/
def download_files (cfg : DlConfig) (fsExists : String → Bool) (resolveURL : String → String)
    (oracle : Nat → Nat → AttemptOutcome) (base dir : String)
    (entries : List (String × String)) : List (List Event) :=
  download_files_go cfg fsExists resolveURL oracle base dir 0 entries

theorem download_files_go_length (cfg : DlConfig) (fsExists : String → Bool)
    (resolveURL : String → String) (oracle : Nat → Nat → AttemptOutcome) (base dir : String) :
    ∀ (i : Nat) (es : List (String × String)),
      (download_files_go cfg fsExists resolveURL oracle base dir i es).length = es.length := by
  intro i es
  induction es generalizing i with
  | nil => rfl
  | cons e rest ih => simp [download_files_go, ih]

theorem download_files_go_get (cfg : DlConfig) (fsExists : String → Bool)
    (resolveURL : String → String) (oracle : Nat → Nat → AttemptOutcome) (base dir : String) :
    ∀ (es : List (String × String)) (i j : Nat) (hj : j < es.length),
      (download_files_go cfg fsExists resolveURL oracle base dir i es)[j]? =
        some (process_file cfg fsExists resolveURL (oracle (i + j)) base dir (es.get ⟨j, hj⟩)) := by
  intro es
  induction es with
  | nil => intro i j hj; simp at hj
  | cons e rest ih =>
    intro i j hj
    cases j with
    | zero => simp [download_files_go]
    | succ j =>
      have hj' : j < rest.length := by simpa using hj
      have := ih (i + 1) j hj'
      simp only [download_files_go, List.getElem?_cons_succ]
      rw [this]
      have : i + 1 + j = i + (j + 1) := by omega
      simp [this]

theorem download_file_go_all_conn (oracle : Nat → AttemptOutcome) (speed : Int) (url fp : String)
    (hconn : ∀ k, oracle k = AttemptOutcome.connectionError) :
    download_file oracle speed url fp =
      [Event.httpRequest url, Event.logRetry 1, Event.httpRequest url, Event.logRetry 2,
       Event.httpRequest url, Event.logRetry 3] := by
  simp [download_file, download_file_go, hconn 0, hconn 1, hconn 2]

theorem download_file_go_no_abandon (oracle : Nat → AttemptOutcome) (speed : Int) (url fp : String) :
    ∀ (fuel a : Nat),
      (download_file_go oracle speed url fp fuel a).countP isLogAbandon = 0 := by
  intro fuel
  induction fuel with
  | zero => intro a; rfl
  | succ n ih =>
    intro a
    by_cases h3 : a < 3
    · cases ho : oracle a with
      | response s =>
        by_cases hs : s = 200 <;>
          simp [download_file_go, h3, ho, hs, List.countP_cons, isLogAbandon]
      | connectionError =>
        simp [download_file_go, h3, ho, List.countP_cons, isLogAbandon, ih (a + 1)]
      | otherError =>
        simp [download_file_go, h3, ho, List.countP_cons, isLogAbandon]
    · simp [download_file_go, h3]


theorem download_file_go_succ_200 (oracle : Nat → AttemptOutcome) (speed : Int) (url fp : String)
    (n a : Nat) (h3 : a < 3) (s : Nat) (ho : oracle a = AttemptOutcome.response s)
    (hs : s = 200) :
    download_file_go oracle speed url fp (n + 1) a =
      [Event.httpRequest url, Event.fileSaved fp, Event.sleep speed] := by
  simp only [download_file_go, if_pos h3, ho, if_pos hs]

theorem download_file_go_succ_non200 (oracle : Nat → AttemptOutcome) (speed : Int) (url fp : String)
    (n a : Nat) (h3 : a < 3) (s : Nat) (ho : oracle a = AttemptOutcome.response s)
    (hs : ¬ s = 200) :
    download_file_go oracle speed url fp (n + 1) a =
      [Event.httpRequest url, Event.logSkipStatus s, Event.sleep speed] := by
  simp only [download_file_go, if_pos h3, ho, if_neg hs]

theorem download_file_go_succ_conn (oracle : Nat → AttemptOutcome) (speed : Int) (url fp : String)
    (n a : Nat) (h3 : a < 3) (ho : oracle a = AttemptOutcome.connectionError) :
    download_file_go oracle speed url fp (n + 1) a =
      Event.httpRequest url :: Event.logRetry (a + 1) ::
        download_file_go oracle speed url fp n (a + 1) := by
  simp only [download_file_go, if_pos h3, ho]

theorem download_file_go_succ_other (oracle : Nat → AttemptOutcome) (speed : Int) (url fp : String)
    (n a : Nat) (h3 : a < 3) (ho : oracle a = AttemptOutcome.otherError) :
    download_file_go oracle speed url fp (n + 1) a =
      [Event.httpRequest url, Event.logSkipUnexpected] := by
  simp only [download_file_go, if_pos h3, ho]

theorem download_file_go_succ_done (oracle : Nat → AttemptOutcome) (speed : Int) (url fp : String)
    (n a : Nat) (h3 : ¬ a < 3) :
    download_file_go oracle speed url fp (n + 1) a = [] := by
  simp only [download_file_go, if_neg h3]

theorem download_file_go_pacing (oracle : Nat → AttemptOutcome) (speed : Int) (url fp : String) :
    ∀ (fuel a : Nat),
      (∀ k s, (download_file_go oracle speed url fp fuel a)[k]? = some (Event.logSkipStatus s) →
        (download_file_go oracle speed url fp fuel a)[k + 1]? = some (Event.sleep speed)) ∧
      (∀ k p, (download_file_go oracle speed url fp fuel a)[k]? = some (Event.fileSaved p) →
        (download_file_go oracle speed url fp fuel a)[k + 1]? = some (Event.sleep speed)) ∧
      (∀ k d, (download_file_go oracle speed url fp fuel a)[k]? = some (Event.sleep d) →
        d = speed ∧ (download_file_go oracle speed url fp fuel a)[k + 1]? = none) := by
  intro fuel
  induction fuel with
  | zero =>
    intro a
    refine ⟨?_, ?_, ?_⟩ <;> intro k x hk <;> simp [download_file_go] at hk
  | succ n ih =>
    intro a
    by_cases h3 : a < 3
    · cases ho : oracle a with
      | response s =>
        by_cases hs : s = 200
        · rw [download_file_go_succ_200 oracle speed url fp n a h3 s ho hs]
          refine ⟨?_, ?_, ?_⟩ <;> intro k x hk
          · rcases k with _ | _ | _ | m <;> simp_all
          · rcases k with _ | _ | _ | m <;> simp_all
          · rcases k with _ | _ | _ | m <;> simp_all
        · rw [download_file_go_succ_non200 oracle speed url fp n a h3 s ho hs]
          refine ⟨?_, ?_, ?_⟩ <;> intro k x hk
          · rcases k with _ | _ | _ | m <;> simp_all
          · rcases k with _ | _ | _ | m <;> simp_all
          · rcases k with _ | _ | _ | m <;> simp_all
      | connectionError =>
        have ihc := ih (a + 1)
        rw [download_file_go_succ_conn oracle speed url fp n a h3 ho]
        refine ⟨?_, ?_, ?_⟩ <;> intro k x hk
        · rcases k with _ | _ | m
          · simp at hk
          · simp at hk
          · simp only [List.getElem?_cons_succ] at hk ⊢
            exact ihc.1 m x hk
        · rcases k with _ | _ | m
          · simp at hk
          · simp at hk
          · simp only [List.getElem?_cons_succ] at hk ⊢
            exact ihc.2.1 m x hk
        · rcases k with _ | _ | m
          · simp at hk
          · simp at hk
          · simp only [List.getElem?_cons_succ] at hk ⊢
            exact ihc.2.2 m x hk
      | otherError =>
        rw [download_file_go_succ_other oracle speed url fp n a h3 ho]
        refine ⟨?_, ?_, ?_⟩ <;> intro k x hk <;>
          rcases k with _ | _ | m <;> simp_all
    · rw [download_file_go_succ_done oracle speed url fp n a h3]
      refine ⟨?_, ?_, ?_⟩ <;> intro k x hk <;> simp at hk

/-- C1: if every network attempt for one entry raises a connection error, the
loop makes exactly 3 attempts (trace `request, retry 1, request, retry 2,
request, retry 3`), saves nothing, and the run is not terminated: the result
still has one trace per entry and every entry (in particular every subsequent
one) is processed by the ordinary per-file loop. -/
theorem claim_C1_retry_exhaustion (cfg : DlConfig) (fsExists : String → Bool)
    (resolveURL : String → String) (oracle : Nat → Nat → AttemptOutcome) (base dir : String)
    (entries : List (String × String)) (i : Nat) (hi : i < entries.length)
    (hconn : ∀ k, oracle i k = AttemptOutcome.connectionError)
    (hnoskip : (cfg.skip_existing && fsExists (file_path base dir (entries[i]).2)) = false) :
    (download_files cfg fsExists resolveURL oracle base dir entries)[i]? =
      some [Event.httpRequest (resolveURL (entries[i]).1), Event.logRetry 1,
            Event.httpRequest (resolveURL (entries[i]).1), Event.logRetry 2,
            Event.httpRequest (resolveURL (entries[i]).1), Event.logRetry 3] ∧
    (∀ tr, (download_files cfg fsExists resolveURL oracle base dir entries)[i]? = some tr →
      tr.countP isHttpRequest = 3 ∧ tr.countP isFileSaved = 0) ∧
    (download_files cfg fsExists resolveURL oracle base dir entries).length = entries.length ∧
    (∀ j (hj : j < entries.length),
      (download_files cfg fsExists resolveURL oracle base dir entries)[j]? =
        some (process_file cfg fsExists resolveURL (oracle j) base dir (entries[j]))) := by
  have h1 : (download_files cfg fsExists resolveURL oracle base dir entries)[i]? =
      some [Event.httpRequest (resolveURL (entries[i]).1), Event.logRetry 1,
            Event.httpRequest (resolveURL (entries[i]).1), Event.logRetry 2,
            Event.httpRequest (resolveURL (entries[i]).1), Event.logRetry 3] := by
    rw [download_files, download_files_go_get cfg fsExists resolveURL oracle base dir entries 0 i hi]
    simp only [Nat.zero_add, process_file, List.get_eq_getElem]
    rw [if_neg (by rw [hnoskip]; exact Bool.false_ne_true),
      download_file_go_all_conn (oracle i) cfg.crawl_speed _ _ hconn]
  refine ⟨h1, ?_, ?_, ?_⟩
  · intro tr htr
    rw [h1, Option.some.injEq] at htr
    subst htr
    constructor <;>
      simp [List.countP_cons, isHttpRequest, isFileSaved]
  · exact download_files_go_length cfg fsExists resolveURL oracle base dir 0 entries
  · intro j hj
    rw [download_files, download_files_go_get cfg fsExists resolveURL oracle base dir entries 0 j hj]
    simp only [Nat.zero_add, List.get_eq_getElem]

theorem claim_C1_retry_exhaustion_witness :
    (download_files ⟨2, false⟩ (fun _ => false) (fun s => s)
        (fun _ _ => AttemptOutcome.connectionError) "b" "d" [("p", "l"), ("q", "m")])[0]? =
      some [Event.httpRequest "p", Event.logRetry 1, Event.httpRequest "p", Event.logRetry 2,
            Event.httpRequest "p", Event.logRetry 3] ∧
    (download_files ⟨2, false⟩ (fun _ => false) (fun s => s)
        (fun _ _ => AttemptOutcome.connectionError) "b" "d" [("p", "l"), ("q", "m")]).length = 2 := by
  have h := claim_C1_retry_exhaustion ⟨2, false⟩ (fun _ => false) (fun s => s)
    (fun _ _ => AttemptOutcome.connectionError) "b" "d" [("p", "l"), ("q", "m")] 0
    (by decide) (fun k => rfl) (by decide)
  exact ⟨h.1, h.2.2.1⟩

/-- C8: with `skip_existing = true` and a pre-existing target file, the entry's
trace is exactly the skip-log event: zero network requests and zero retry
attempts, and every entry of the list still gets its own trace (the loop
proceeds to the next entry). -/
theorem claim_C8_skip_existing (cfg : DlConfig) (fsExists : String → Bool)
    (resolveURL : String → String) (oracle : Nat → Nat → AttemptOutcome) (base dir : String)
    (entries : List (String × String)) (i : Nat) (hi : i < entries.length)
    (hskip : cfg.skip_existing = true)
    (hex : fsExists (file_path base dir (entries[i]).2) = true) :
    (download_files cfg fsExists resolveURL oracle base dir entries)[i]? =
      some [Event.logSkipExisting (file_path base dir (entries[i]).2)] ∧
    (∀ tr, (download_files cfg fsExists resolveURL oracle base dir entries)[i]? = some tr →
      tr.countP isHttpRequest = 0 ∧ tr.countP isLogRetry = 0) ∧
    (download_files cfg fsExists resolveURL oracle base dir entries).length = entries.length := by
  have h1 : (download_files cfg fsExists resolveURL oracle base dir entries)[i]? =
      some [Event.logSkipExisting (file_path base dir (entries[i]).2)] := by
    rw [download_files, download_files_go_get cfg fsExists resolveURL oracle base dir entries 0 i hi]
    simp only [Nat.zero_add, process_file, List.get_eq_getElem]
    rw [if_pos (by rw [hskip, hex]; rfl)]
  refine ⟨h1, ?_, ?_⟩
  · intro tr htr
    rw [h1, Option.some.injEq] at htr
    subst htr
    constructor <;>
      simp [List.countP_cons, isHttpRequest, isLogRetry]
  · exact download_files_go_length cfg fsExists resolveURL oracle base dir 0 entries

theorem claim_C8_skip_existing_witness :
    (download_files ⟨2, true⟩ (fun _ => true) (fun s => s)
        (fun _ _ => AttemptOutcome.connectionError) "b" "d" [("p", "l")])[0]? =
      some [Event.logSkipExisting (file_path "b" "d" "l")] ∧
    (download_files ⟨2, true⟩ (fun _ => true) (fun s => s)
        (fun _ _ => AttemptOutcome.connectionError) "b" "d" [("p", "l")]).length = 1 := by
  have h := claim_C8_skip_existing ⟨2, true⟩ (fun _ => true) (fun s => s)
    (fun _ _ => AttemptOutcome.connectionError) "b" "d" [("p", "l")] 0
    (by decide) rfl rfl
  exact ⟨h.1, h.2.2⟩

/-- C9: in the per-file loop, every attempt that receives an HTTP response
(success `fileSaved` or non-200 `logSkipStatus`) is immediately followed by the
pacing sleep of `crawl_speed` seconds; a sleep event carries exactly
`crawl_speed`, and nothing at all — in particular no retry request — follows a
sleep within the file's trace, so no pacing delay separates a connection-error
failure from its retry.  The configured speed defaults to 2. -/
theorem claim_C9_pacing (oracle : Nat → AttemptOutcome) (speed : Int) (url fp : String) :
    (∀ k s, (download_file oracle speed url fp)[k]? = some (Event.logSkipStatus s) →
      (download_file oracle speed url fp)[k + 1]? = some (Event.sleep speed)) ∧
    (∀ k p, (download_file oracle speed url fp)[k]? = some (Event.fileSaved p) →
      (download_file oracle speed url fp)[k + 1]? = some (Event.sleep speed)) ∧
    (∀ k d, (download_file oracle speed url fp)[k]? = some (Event.sleep d) →
      d = speed ∧ (download_file oracle speed url fp)[k + 1]? = none) ∧
    init_crawl_speed none = 2 := by
  have h := download_file_go_pacing oracle speed url fp 3 0
  exact ⟨h.1, h.2.1, h.2.2, rfl⟩

theorem claim_C9_pacing_witness :
    (download_file (fun _ => AttemptOutcome.response 404) 2 "u" "f")[2]? =
      some (Event.sleep 2) ∧
    (download_file (fun _ => AttemptOutcome.response 404) 2 "u" "f")[3]? = none := by
  have h := claim_C9_pacing (fun _ => AttemptOutcome.response 404) 2 "u" "f"
  have h2 := h.1 1 404 rfl
  exact ⟨h2, (h.2.2.1 2 2 h2).2⟩

/-- C10: for every execution of the per-file retry loop, the counter passed to
a caught connection error is at most 2 (the loop guard value), so the
`"Skipping file N, k failed attempts"` branch never runs: no trace of
`download_file` contains an abandonment log event. -/
theorem claim_C10_abandon_branch_dead (oracle : Nat → AttemptOutcome) (speed : Int)
    (url fp : String) :
    (download_file oracle speed url fp).countP isLogAbandon = 0 :=
  download_file_go_no_abandon oracle speed url fp 3 0

/-- Python `str.isspace` characters relevant to `str.strip()`. -/
def isPyWhitespace (c : Char) : Bool :=
  c = ' ' || c = '\t' || c = '\n' || c = '\r' || c = '\x0b' || c = '\x0c'

/-- Python `str.strip`-style stripping of characters satisfying `p` from
both ends of a character list. -/
def pyStripList (p : Char → Bool) (l : List Char) : List Char :=
  ((l.dropWhile p).reverse.dropWhile p).reverse

/-- Boolean test that `s` starts the list `l` (used to locate substring
occurrences, as Python's `in` and `str.split` do). -/
def listIsPre : List Char → List Char → Bool
  | [], _ => true
  | _ :: _, [] => false
  | a :: s, b :: t => a == b && listIsPre s t

/-- Python's substring containment `sub in l`. -/
def containsSub (sub : List Char) : List Char → Bool
  | [] => sub.isEmpty
  | c :: rest => listIsPre sub (c :: rest) || containsSub sub rest

/-- Worker for `pySplit`; `fuel` bounds the scan length (each step consumes at
least one character, so `fuel = l.length` never runs out). -/
def splitOnSubFuel (sep : List Char) : Nat → List Char → List Char → List (List Char)
  | 0, l, acc => [acc.reverse ++ l]
  | fuel + 1, l, acc =>
    match l with
    | [] => [acc.reverse]
    | c :: rest =>
      if listIsPre sep (c :: rest) then
        acc.reverse :: splitOnSubFuel sep fuel (rest.drop (sep.length - 1)) []
      else
        splitOnSubFuel sep fuel rest (c :: acc)

/-- Python `l.split(sep)` for a non-empty separator: cut at every
non-overlapping occurrence of `sep`, scanning left to right. -/
def pySplit (l sep : List Char) : List (List Char) :=
  if sep.isEmpty then [l] else splitOnSubFuel sep l.length l []

theorem listIsPre_append_left (s t : List Char) :
    ∀ l, listIsPre (s ++ t) l = true → listIsPre s l = true := by
  induction s with
  | nil => intro l _; rfl
  | cons a s ih =>
    intro l h
    cases l with
    | nil => simp [listIsPre] at h
    | cons b l' =>
      simp only [List.cons_append, listIsPre, Bool.and_eq_true] at h ⊢
      exact ⟨h.1, ih l' h.2⟩

theorem containsSub_append_left (s t : List Char) :
    ∀ l, containsSub (s ++ t) l = true → containsSub s l = true := by
  intro l
  induction l with
  | nil =>
    intro h
    simp only [containsSub, List.isEmpty_iff, List.append_eq_nil] at h ⊢
    exact h.1
  | cons c rest ih =>
    intro h
    simp only [containsSub, Bool.or_eq_true] at h ⊢
    cases h with
    | inl h => exact Or.inl (listIsPre_append_left s t _ h)
    | inr h => exact Or.inr (ih h)

theorem splitOnSubFuel_not_contains (sep : List Char) :
    ∀ (fuel : Nat) (l acc : List Char), containsSub sep l = false →
      splitOnSubFuel sep fuel l acc = [acc.reverse ++ l] := by
  intro fuel
  induction fuel with
  | zero => intro l acc _; rfl
  | succ n ih =>
    intro l acc h
    cases l with
    | nil => simp [splitOnSubFuel]
    | cons c rest =>
      simp only [containsSub, Bool.or_eq_false_iff] at h
      simp only [splitOnSubFuel, h.1, Bool.false_eq_true, if_false]
      rw [ih rest (c :: acc) h.2]
      simp

theorem pySplit_not_contains (l sep : List Char) (h : containsSub sep l = false) :
    pySplit l sep = [l] := by
  unfold pySplit
  by_cases he : sep.isEmpty
  · rw [if_pos he]
  · rw [if_neg he, splitOnSubFuel_not_contains sep l.length l [] h]
    rfl

/-- Scan a double-quoted string literal after its opening quote, up to the
closing quote; returns the content and the rest.  Models the string form
actually embedded in record pages (no escape sequences). -/
def scanStringLit : List Char → Option (List Char × List Char)
  | [] => none
  | c :: rest =>
    if c = '"' then some ([], rest)
    else
      match scanStringLit rest with
      | some (s, r) => some (c :: s, r)
      | none => none

/-- Items of a Python list literal of double-quoted strings, after the
opening bracket; accepts an optional trailing comma and requires only
whitespace after the closing bracket, as `ast.literal_eval` does. -/
def parseItemsAux : Nat → List Char → Option (List String)
  | 0, _ => none
  | fuel + 1, l =>
    match l.dropWhile isPyWhitespace with
    | ']' :: r => if (r.dropWhile isPyWhitespace).isEmpty then some [] else none
    | '"' :: r =>
      match scanStringLit r with
      | none => none
      | some (s, r2) =>
        match r2.dropWhile isPyWhitespace with
        | ',' :: r3 =>
          match parseItemsAux fuel r3 with
          | some ss => some (String.mk s :: ss)
          | none => none
        | ']' :: r3 =>
          if (r3.dropWhile isPyWhitespace).isEmpty then some [String.mk s] else none
        | _ => none
    | _ => none

/-- `ast.literal_eval` restricted to the shape the scraper feeds it: a
list literal of double-quoted strings.  `none` models the exception
(`ValueError`/`SyntaxError`) raised on any other input. -/
def parseStringListLit (l : List Char) : Option (List String) :=
  match l.dropWhile isPyWhitespace with
  | '[' :: r => parseItemsAux (r.length + 1) r
  | _ => none

/-- `tuple(zip(full_files_list, full_labels_list))` (line 210). -/
def image_entries (files labels : List String) : List (String × String) :=
  files.zip labels

/-- Lines 210-216 of `parse_image_URLs_and_labels`: zip the two parsed lists
positionally, then truncate to the first `file_range` entries when a range is
configured and smaller than the zipped count. -/
def image_URLs_and_labels (file_range : Option Nat) (files labels : List String) :
    List (String × String) :=
  let entries := image_entries files labels
  match file_range with
  | some r => if r < entries.length then entries.take r else entries
  | none => entries

/-- `'"files":'`, the first embedded-data marker. -/
def filesMarker : List Char := "\"files\":".toList

/-- `'"labels":'`, the separator used to slice out the labels list. -/
def labelsMarker : List Char := "\"labels\":".toList

/-- `'"],'`, the closing delimiter of each embedded list. -/
def closeMarker : List Char := "\"],".toList

/-- `Downloader.parse_image_URLs_and_labels` (lines 195-216).  The marker
guard calls `log_error_and_exit`, modelled by `Except.error`; any exception in
the slicing/`literal_eval` chain propagates to `fetch_record_page`'s
`except Exception` handler, which also exits fatally, so those paths are
`Except.error` too.  On success the result is the zipped, possibly truncated,
entry list. -/
def parse_image_URLs_and_labels (file_range : Option Nat) (body : List Char) :
    Except String (List (String × String)) :=
  if containsSub filesMarker body = false ∨ containsSub "labels".toList body = false then
    Except.error "Error Parsing Image URLs, Exiting"
  else
    match (pySplit body filesMarker)[1]? with
    | none => Except.error "Unexpected Error Fetching Record Page, Exiting"
    | some start_files_list =>
      match parseStringListLit
          (pyStripList isPyWhitespace ((pySplit start_files_list closeMarker).headD []) ++
            "\"]".toList) with
      | none => Except.error "Unexpected Error Fetching Record Page, Exiting"
      | some full_files_list =>
        match (pySplit body labelsMarker)[1]? with
        | none => Except.error "Unexpected Error Fetching Record Page, Exiting"
        | some start_labels_list =>
          match parseStringListLit
              (pyStripList isPyWhitespace ((pySplit start_labels_list closeMarker).headD []) ++
                "\"]".toList) with
          | none => Except.error "Unexpected Error Fetching Record Page, Exiting"
          | some full_labels_list =>
            Except.ok (image_URLs_and_labels file_range full_files_list full_labels_list)

/-- Result of processing one record page: either the process exited fatally
before any download, or the per-file download traces. -/
inductive RecordRunResult where
  | fatalExit (msg : String)
  | completed (fileTraces : List (List Event))
deriving DecidableEq

/-- `True` exactly when the run ended in `sys.exit`. -/
def isFatalExit : RecordRunResult → Bool
  | RecordRunResult.fatalExit _ => true
  | _ => false

/-- Total number of image-download network requests issued by a record run. -/
def run_requests : RecordRunResult → Nat
  | RecordRunResult.fatalExit _ => 0
  | RecordRunResult.completed ts => (ts.map (fun t => t.countP isHttpRequest)).sum

/-- `fetch_record_page` (entry extraction) followed by `download_files`, for a
record page fetched with status 200: a fatal exit while extracting image
entries terminates the process before any file download. -/
def record_page_run (file_range : Option Nat) (cfg : DlConfig) (fsExists : String → Bool)
    (resolveURL : String → String) (oracle : Nat → Nat → AttemptOutcome)
    (base dir : String) (body : List Char) : RecordRunResult :=
  match parse_image_URLs_and_labels file_range body with
  | Except.error m => RecordRunResult.fatalExit m
  | Except.ok entries =>
    RecordRunResult.completed (download_files cfg fsExists resolveURL oracle base dir entries)

/-- `True` exactly on the fatal (`Except.error`) results. -/
def exceptIsError {A : Type} : Except String A → Bool
  | Except.error _ => true
  | Except.ok _ => false

/-- C2: whenever the `'"files":'` marker or the `'"labels"'` marker is absent
from a record page body, extracting the image entries ends in a fatal process
exit (either the explicit marker guard or the exception raised while slicing
out the labels list) and the record run performs no download request. -/
theorem claim_C2_missing_markers_fatal (file_range : Option Nat) (cfg : DlConfig)
    (fsExists : String → Bool) (resolveURL : String → String)
    (oracle : Nat → Nat → AttemptOutcome) (base dir : String) (body : List Char)
    (h : containsSub filesMarker body = false ∨
      containsSub "\"labels\"".toList body = false) :
    isFatalExit (record_page_run file_range cfg fsExists resolveURL oracle base dir body) =
      true ∧
    run_requests (record_page_run file_range cfg fsExists resolveURL oracle base dir body) = 0 := by
  have herr : exceptIsError (parse_image_URLs_and_labels file_range body) = true := by
    unfold parse_image_URLs_and_labels
    by_cases hguard : containsSub filesMarker body = false ∨
        containsSub "labels".toList body = false
    · rw [if_pos hguard]; rfl
    · have hql : containsSub "\"labels\"".toList body = false := by
        cases h with
        | inl hf => exact absurd (Or.inl hf) hguard
        | inr hl => exact hl
      have hlm : containsSub labelsMarker body = false := by
        cases hcm : containsSub labelsMarker body
        · rfl
        · have he : labelsMarker = "\"labels\"".toList ++ [':'] := by decide
          have h2 := containsSub_append_left _ _ body (he ▸ hcm)
          exact absurd (hql.symm.trans h2) Bool.false_ne_true
      have hspl : pySplit body labelsMarker = [body] :=
        pySplit_not_contains body labelsMarker hlm
      rw [if_neg hguard]
      split
      · rfl
      · split
        · rfl
        · rw [hspl]
          rfl
  cases hparse : parse_image_URLs_and_labels file_range body with
  | error m =>
    unfold record_page_run
    rw [hparse]
    exact ⟨rfl, rfl⟩
  | ok es =>
    rw [hparse] at herr
    simp [exceptIsError] at herr

theorem claim_C2_missing_markers_fatal_witness :
    isFatalExit (record_page_run none ⟨2, false⟩ (fun _ => false) (fun s => s)
      (fun _ _ => AttemptOutcome.connectionError) "b" "d" "hello".toList) = true ∧
    run_requests (record_page_run none ⟨2, false⟩ (fun _ => false) (fun s => s)
      (fun _ _ => AttemptOutcome.connectionError) "b" "d" "hello".toList) = 0 :=
  claim_C2_missing_markers_fatal none ⟨2, false⟩ (fun _ => false) (fun s => s)
    (fun _ _ => AttemptOutcome.connectionError) "b" "d" "hello".toList (Or.inl (by decide))

/-- C3: with `file_range = some k` (the configured `maxFileCount`), the kept
entry sequence is exactly the first `k` zipped entries in source order when
`k` is smaller than the parsed count, and the full parsed sequence otherwise
or when no range is configured; the download loop then produces exactly one
trace per kept entry, so entries beyond the first `k` are never fetched. -/
theorem claim_C3_max_file_count (files labels : List String) (k : Nat) :
    (k < (image_entries files labels).length →
      image_URLs_and_labels (some k) files labels = (image_entries files labels).take k ∧
      (image_URLs_and_labels (some k) files labels).length = k) ∧
    ((image_entries files labels).length ≤ k →
      image_URLs_and_labels (some k) files labels = image_entries files labels) ∧
    image_URLs_and_labels none files labels = image_entries files labels ∧
    (∀ (cfg : DlConfig) (fsExists : String → Bool) (resolveURL : String → String)
      (oracle : Nat → Nat → AttemptOutcome) (base dir : String),
      (download_files cfg fsExists resolveURL oracle base dir
          (image_URLs_and_labels (some k) files labels)).length =
        (image_URLs_and_labels (some k) files labels).length) := by
  refine ⟨?_, ?_, rfl, ?_⟩
  · intro hk
    constructor
    · simp [image_URLs_and_labels, hk]
    · simp only [image_URLs_and_labels, if_pos hk, List.length_take]
      omega
  · intro hk
    have : ¬ k < (image_entries files labels).length := by omega
    simp [image_URLs_and_labels, this]
  · intro cfg fsExists resolveURL oracle base dir
    exact download_files_go_length cfg fsExists resolveURL oracle base dir 0 _

theorem claim_C3_max_file_count_witness :
    image_URLs_and_labels (some 2) ["a", "b", "c"] ["x", "y", "z"] =
      (image_entries ["a", "b", "c"] ["x", "y", "z"]).take 2 ∧
    (image_URLs_and_labels (some 2) ["a", "b", "c"] ["x", "y", "z"]).length = 2 ∧
    image_URLs_and_labels (some 5) ["a", "b", "c"] ["x", "y", "z"] =
      image_entries ["a", "b", "c"] ["x", "y", "z"] := by
  have h := claim_C3_max_file_count ["a", "b", "c"] ["x", "y", "z"] 2
  have h5 := claim_C3_max_file_count ["a", "b", "c"] ["x", "y", "z"] 5
  exact ⟨(h.1 (by decide)).1, (h.1 (by decide)).2, h5.2.1 (by decide)⟩

theorem image_entries_getElem (files labels : List String) :
    ∀ (i : Nat), i < files.length → i < labels.length →
      (image_entries files labels)[i]? = some ((files.getD i "", labels.getD i "")) := by
  unfold image_entries
  induction files generalizing labels with
  | nil => intro i h1 _; simp at h1
  | cons f fs ih =>
    intro i h1 h2
    cases labels with
    | nil => simp at h2
    | cons l ls =>
      cases i with
      | zero => simp [List.zip]
      | succ i =>
        have h1' : i < fs.length := by simpa using h1
        have h2' : i < ls.length := by simpa using h2
        simpa [List.zip] using ih ls i h1' h2'

/-- C4: the parsed entry sequence is the positional zip of the files list and
the labels list: its length is the minimum of the two lengths (extra items of
the longer list are dropped, with no error value involved), and position `i`
pairs the `i`-th file with the `i`-th label. -/
theorem claim_C4_positional_zip (files labels : List String) :
    (image_entries files labels).length = min files.length labels.length ∧
    (∀ (i : Nat), i < files.length → i < labels.length →
      (image_entries files labels)[i]? = some ((files.getD i "", labels.getD i ""))) := by
  refine ⟨?_, image_entries_getElem files labels⟩
  simp [image_entries]

theorem claim_C4_positional_zip_witness :
    (image_entries ["a"] ["x", "y"]).length = min 1 2 ∧
    (image_entries ["a"] ["x", "y"])[0]? = some ("a", "x") := by
  have h := claim_C4_positional_zip ["a"] ["x", "y"]
  exact ⟨h.1, h.2 0 (by decide) (by decide)⟩

/-- The `sanitize_filename` fallback defined at the top of the module for
when `pathvalidate` is unavailable: keep only the alphanumeric characters
(ASCII model of `str.isalnum`). -/
def sanitize_filename (s : String) : String :=
  String.mk (s.toList.filter Char.isAlphanum)

/-- Python `str.strip()` on a `String`. -/
def pyStripWS (s : String) : String :=
  String.mk (pyStripList isPyWhitespace s.toList)

/-- Lowercase hexadecimal digit, the alphabet of `str(uuid.uuid4())`. -/
def isHexChar (c : Char) : Bool :=
  c.isDigit || ('a' ≤ c && c ≤ 'f')

/-- The canonical 8-4-4-4-12 string form of the UUID whose 32 hex digits are
given; models `str(uuid.uuid4())`. -/
def uuid_canonical (hexdigits : List Char) : List Char :=
  hexdigits.take 8 ++ '-' :: ((hexdigits.drop 8).take 4) ++ '-' :: ((hexdigits.drop 12).take 4) ++
    '-' :: ((hexdigits.drop 16).take 4) ++ '-' :: (hexdigits.drop 20).take 12

/-- `str(uuid.uuid4())[0:18]` (lines 253-255). -/
def random_directory_name (hexdigits : List Char) : List Char :=
  (uuid_canonical hexdigits).take 18

/-- Lines 224-241: the HTML-table naming tier.  `tds` is the list of table
cell texts when `soup.find(...).findAll("td")` succeeds, `none` when that
lookup raises; fewer than two cells raises `IndexError`, failing the tier;
the optional third cell appends `"__" + fullname` when requested and
non-empty, its own errors swallowed by the inner bare `except`. -/
def html_name_tier (simple_dirnames include_fullname : Bool) (tds : Option (List String)) :
    Option (String × String) :=
  if simple_dirnames then none
  else
    match tds with
    | none => none
    | some cells =>
      match cells[0]?, cells[1]? with
      | some c0, some c1 =>
        let cat := pyStripWS c0
        let id0 := pyStripWS c1
        let id1 :=
          if include_fullname then
            match cells[2]? with
            | some c2 => if pyStripWS c2 = "" then id0 else id0 ++ "__" ++ pyStripWS c2
            | none => id0
          else id0
        some (cat, id1)
      | _, _ => none

/-- Lines 245-248: `record_URL.strip("/").split("/")[-2:]` unpacked into
category and identifier; fewer than two segments raises `ValueError`,
failing the tier. -/
def url_name_tier (record_URL : String) : Option (String × String) :=
  let parts := pySplit (pyStripList (fun c => c == '/') record_URL.toList) ['/']
  if 2 ≤ parts.length then
    some (String.mk (parts.getD (parts.length - 2) []),
      String.mk (parts.getD (parts.length - 1) []))
  else none

/-- Lines 261-268: sanitize category and identifier, then combine them with
`os.path.join` (hierarchical) or `_` (flat). -/
def build_archive_directory_name (deep_hierarchy : Bool) (cat ident : String) : String :=
  if deep_hierarchy then pyPathJoin (sanitize_filename cat) (sanitize_filename ident)
  else sanitize_filename cat ++ "_" ++ sanitize_filename ident

/-- `Downloader.parse_archive_name` (lines 222-268): HTML tier, then URL
tier, then the random-UUID name — which is returned directly, bypassing both
sanitisation and the hierarchy option. -/
def parse_archive_name (simple_dirnames include_fullname deep_hierarchy : Bool)
    (tds : Option (List String)) (record_URL : String) (uuid_hexdigits : List Char) : String :=
  match html_name_tier simple_dirnames include_fullname tds with
  | some (cat, ident) => build_archive_directory_name deep_hierarchy cat ident
  | none =>
    match url_name_tier record_URL with
    | some (cat, ident) => build_archive_directory_name deep_hierarchy cat ident
    | none => String.mk (random_directory_name uuid_hexdigits)

/-- C5, counterexample: at a concrete UUID value, the 18-character identifier
produced by the random tier is not the first 18 hex characters of the UUID
and is not alphanumeric-only: positions 9 and 14 of the canonical string are
hyphens, which survive the `[0:18]` slice. -/
theorem claim_C5_counterexample :
    (random_directory_name "0123456789abcdef0123456789abcdef".toList ==
      "0123456789abcdef0123456789abcdef".toList.take 18) = false ∧
    (random_directory_name "0123456789abcdef0123456789abcdef".toList).contains '-' = true ∧
    '-'.isAlphanum = false ∧
    random_directory_name "0123456789abcdef0123456789abcdef".toList =
      "01234567-89ab-cdef".toList := by
  refine ⟨by decide, by decide, by decide, by decide⟩

theorem random_directory_name_length (hex : List Char) (hlen : hex.length = 32) :
    (random_directory_name hex).length = 18 := by
  have hcan : (uuid_canonical hex).length = 36 := by
    simp [uuid_canonical, hlen]
  simp [random_directory_name, hcan]

theorem uuid_canonical_chars (hex : List Char) (hhex : hex.all isHexChar = true) :
    ∀ c, c ∈ uuid_canonical hex → (isHexChar c || c = '-') = true := by
  intro c hc
  simp only [List.all_eq_true] at hhex
  simp only [uuid_canonical, List.mem_append, List.mem_cons] at hc
  rcases hc with (((h | h | h) | h | h) | h | h) | h | h
  · simp [hhex c (List.mem_of_mem_take h)]
  · simp [h]
  · simp [hhex c (List.mem_of_mem_drop (List.mem_of_mem_take h))]
  · simp [h]
  · simp [hhex c (List.mem_of_mem_drop (List.mem_of_mem_take h))]
  · simp [h]
  · simp [hhex c (List.mem_of_mem_drop (List.mem_of_mem_take h))]
  · simp [h]
  · simp [hhex c (List.mem_of_mem_drop (List.mem_of_mem_take h))]

/-- C5 (amended): whenever both naming tiers fail, `parse_archive_name`
returns exactly the random name — the first 18 characters of the canonical
UUID string, 16 hex digits plus 2 hyphens — regardless of the hierarchy
option; the name has length 18 and contains no slash. -/
theorem claim_C5_random_fallback (simple_dirnames include_fullname deep_hierarchy : Bool)
    (tds : Option (List String)) (record_URL : String) (hex : List Char)
    (h1 : html_name_tier simple_dirnames include_fullname tds = none)
    (h2 : url_name_tier record_URL = none)
    (hlen : hex.length = 32) (hhex : hex.all isHexChar = true) :
    parse_archive_name simple_dirnames include_fullname deep_hierarchy tds record_URL hex =
      String.mk (random_directory_name hex) ∧
    (random_directory_name hex).length = 18 ∧
    (random_directory_name hex).all (fun c => isHexChar c || c = '-') = true ∧
    (random_directory_name hex).all (fun c => !(c == '/')) = true := by
  refine ⟨?_, random_directory_name_length hex hlen, ?_, ?_⟩
  · simp [parse_archive_name, h1, h2]
  · simp only [List.all_eq_true]
    intro c hc
    exact uuid_canonical_chars hex hhex c (List.mem_of_mem_take hc)
  · simp only [List.all_eq_true]
    intro c hc
    have hch := uuid_canonical_chars hex hhex c (List.mem_of_mem_take hc)
    simp only [Bool.or_eq_true] at hch
    cases hch with
    | inl hh =>
      cases hcq : c == '/'
      · rfl
      · exfalso
        have : c = '/' := by simpa using hcq
        subst this
        simp [isHexChar] at hh
    | inr hd =>
      simp only [decide_eq_true_eq] at hd
      subst hd
      rfl

theorem claim_C5_random_fallback_witness :
    parse_archive_name false false true none ""
        "0123456789abcdef0123456789abcdef".toList =
      String.mk (random_directory_name "0123456789abcdef0123456789abcdef".toList) ∧
    (random_directory_name "0123456789abcdef0123456789abcdef".toList).length = 18 ∧
    (random_directory_name "0123456789abcdef0123456789abcdef".toList).all
      (fun c => isHexChar c || c = '-') = true ∧
    (random_directory_name "0123456789abcdef0123456789abcdef".toList).all
      (fun c => !(c == '/')) = true :=
  claim_C5_random_fallback false false true none ""
    "0123456789abcdef0123456789abcdef".toList rfl rfl (by decide) (by decide)

theorem html_name_tier_none (simple incl : Bool) : html_name_tier simple incl none = none := by
  cases simple <;> rfl

theorem parse_archive_name_from_url (simple incl deep : Bool) (u : String) (hex : List Char)
    (cat ident : String) (hu : url_name_tier u = some (cat, ident)) :
    parse_archive_name simple incl deep none u hex =
      build_archive_directory_name deep cat ident := by
  unfold parse_archive_name
  rw [html_name_tier_none, hu]

/-- C6: a well-formed naming table with category cell `"Parish"` and
identifier cell `"0002"` yields `Parish_0002` in flat mode and `Parish/0002`
in hierarchical mode (the full-name option is immaterial, the table having no
third cell); when the table tier fails and the record URL ends in
`.../deutschland/akmb/0002/`, the URL fallback takes the last two path
segments, category `akmb` and identifier `0002`, combined by the same
sanitize-and-join step; and the sanitizer keeps exactly the alphanumeric
characters. -/
theorem claim_C6_archive_naming (include_fullname : Bool) (u : String) (hex hex2 : List Char) :
    parse_archive_name false include_fullname false (some ["Parish", "0002"]) u hex =
      "Parish_0002" ∧
    parse_archive_name false include_fullname true (some ["Parish", "0002"]) u hex =
      "Parish/0002" ∧
    url_name_tier "https://data.matricula-online.eu/en/deutschland/akmb/0002/" =
      some ("akmb", "0002") ∧
    (∀ (simple incl deep : Bool),
      parse_archive_name simple incl deep none
          "https://data.matricula-online.eu/en/deutschland/akmb/0002/" hex2 =
        build_archive_directory_name deep "akmb" "0002") ∧
    build_archive_directory_name false "akmb" "0002" = "akmb_0002" ∧
    build_archive_directory_name true "akmb" "0002" = "akmb/0002" ∧
    (∀ s : String, (sanitize_filename s).toList.all Char.isAlphanum = true) := by
  have hurl : url_name_tier "https://data.matricula-online.eu/en/deutschland/akmb/0002/" =
      some ("akmb", "0002") := by decide
  refine ⟨?_, ?_, hurl, ?_, ?_, ?_, ?_⟩
  · cases include_fullname <;> rfl
  · cases include_fullname <;> rfl
  · intro simple incl deep
    exact parse_archive_name_from_url simple incl deep _ hex2 "akmb" "0002" hurl
  · decide
  · decide
  · intro s
    show ((s.toList.filter Char.isAlphanum).all Char.isAlphanum) = true
    simp only [List.all_eq_true]
    intro c hc
    exact (List.mem_filter.mp hc).2

/-- `int(...)`'s digit accumulation. -/
def digitsToNat (ds : List Char) : Nat :=
  ds.foldl (fun n c => n * 10 + (c.toNat - '0'.toNat)) 0

/-- Python `int(text)` on the scraped link text: optional surrounding
whitespace, an optional sign, then at least one ASCII digit (`none` models
the `ValueError` raised otherwise). -/
def pyInt (s : List Char) : Option Int :=
  match pyStripList isPyWhitespace s with
  | '-' :: ds =>
    if ds ≠ [] ∧ ds.all Char.isDigit then some (-(digitsToNat ds : Int)) else none
  | '+' :: ds =>
    if ds ≠ [] ∧ ds.all Char.isDigit then some ((digitsToNat ds : Int)) else none
  | ds =>
    if ds ≠ [] ∧ ds.all Char.isDigit then some ((digitsToNat ds : Int)) else none

/-- `Downloader.registers_page_parse_list_pages` (lines 150-168).
`header_found` models whether `soup.find("h3", ...)` returned an element (its
absence makes `findNext` raise `AttributeError`); `page_links` is `none` when
no `ul` follows the header — the `yield 1` path — and otherwise holds the
texts of the `a.page-link` children, of which `[-2]` is read and parsed as
the last page number.  Every exception inside the `try` is caught and exits
the process fatally. -/
def registers_page_parse_list_pages (header_found : Bool)
    (page_links : Option (List String)) : Except String (List Nat) :=
  if header_found = false then
    Except.error "Unexpected Error Fetching Registers Page, Exiting"
  else
    match page_links with
    | none => Except.ok [1]
    | some links =>
      if 2 ≤ links.length then
        match pyInt (links.getD (links.length - 2) "").toList with
        | some n => Except.ok ((List.range n.toNat).map (fun i => i + 1))
        | none => Except.error "Unexpected Error Fetching Registers Page, Exiting"
      else Except.error "Unexpected Error Fetching Registers Page, Exiting"

/-- C7: with the register header present, an index page with no pagination
list yields exactly the single page `[1]`; with a pagination list whose
second-to-last link text parses as the integer `n`, it yields the dense range
`1..n` — `(List.range n.toNat).map (fun i => i + 1)`, whose length is
`n.toNat` and whose `i`-th entry is `i + 1`. -/
theorem claim_C7_pagination :
    registers_page_parse_list_pages true none = Except.ok [1] ∧
    (∀ (links : List String) (n : Int), 2 ≤ links.length →
      pyInt (links.getD (links.length - 2) "").toList = some n →
      registers_page_parse_list_pages true (some links) =
        Except.ok ((List.range n.toNat).map (fun i => i + 1))) ∧
    (∀ m : Nat, ((List.range m).map (fun i => i + 1)).length = m ∧
      ∀ (i : Nat), i < m → ((List.range m).map (fun i => i + 1)).getD i 0 = i + 1) := by
  refine ⟨rfl, ?_, ?_⟩
  · intro links n hlen hparse
    unfold registers_page_parse_list_pages
    rw [if_neg (by simp)]
    show (if 2 ≤ links.length then
        match pyInt (links.getD (links.length - 2) "").toList with
        | some n => Except.ok ((List.range n.toNat).map (fun i => i + 1))
        | none => Except.error "Unexpected Error Fetching Registers Page, Exiting"
      else Except.error "Unexpected Error Fetching Registers Page, Exiting") =
      Except.ok ((List.range n.toNat).map (fun i => i + 1))
    rw [if_pos hlen, hparse]
  · intro m
    constructor
    · simp
    · intro i hi
      simp [List.getD, List.getElem?_map, List.getElem?_range, hi]

theorem claim_C7_pagination_witness :
    registers_page_parse_list_pages true (some ["1", "2", "5", "Next"]) =
      Except.ok ((List.range (Int.toNat 5)).map (fun i => i + 1)) := by
  have h := claim_C7_pagination
  exact h.2.1 ["1", "2", "5", "Next"] 5 (by decide) (by decide)
